import Mathlib

/-!
# vpa_butler — shallow embedding and verification

This file embeds the core data model and the pure decision logic of the
`sapcc/vpa_butler` Kubernetes controller in Lean 4 and proves (or refutes)
the specification claims about it.

Modelling conventions:
* Kubernetes `resource.Quantity` values are embedded as `Nat`: CPU in
  millicores (`Quantity.MilliValue`) and memory in base units
  (`Quantity.Value`); allocatable node resources are validated non-negative
  by the apiserver.
* Go strings are embedded as `String`.  Kubernetes object names are
  DNS-1123 labels/subdomains (ASCII), so Go's byte-wise `len`/slicing
  coincides with character-wise `String.length`/`List.take` on `s.data`.
  String primitives (`strings.Split`, `strings.ToLower`, `strings.Trim`,
  `strings.HasSuffix`) are embedded as structural recursions over
  `List Char` so that every definition evaluates inside the kernel.
* Go maps used for object annotations are embedded as association lists
  with first-occurrence lookup and replace-first insertion; the butler only
  ever reads and upserts single keys, for which both semantics agree.
* `nil` pointers become `Option`; a fallible Go function becomes an
  `Except`-valued one.
-/

namespace VpaButler

/-! ## Strings: Go string helpers -/

/-- `strings.Split s "/"`, specialised to the single separator the butler
uses; recursion over the character list of `s` (`acc` is the reversed
current field). -/
def splitSlashAux : List Char → List Char → List String
  | [], acc => [String.mk acc.reverse]
  | c :: cs, acc =>
    if c = '/' then String.mk acc.reverse :: splitSlashAux cs []
    else splitSlashAux cs (c :: acc)

/-- `strings.Split s "/"` (Go semantics: `"v1" ↦ ["v1"]`, `"apps/v1" ↦
["apps", "v1"]`, `"" ↦ [""]`). -/
def splitSlash (s : String) : List String :=
  splitSlashAux s.data []

/-- `strings.ToLower` for the ASCII names and kinds the butler handles. -/
def lowercase (s : String) : String :=
  String.mk (s.data.map Char.toLower)

/-- Go slicing `s[0:n]` for ASCII strings. -/
def takeChars (s : String) (n : Nat) : String :=
  String.mk (s.data.take n)

/-- `strings.HasSuffix s suf`. -/
def hasSuffix (s suf : String) : Bool :=
  suf.data.isSuffixOf s.data

/-- `strings.Trim s "\""`: remove every leading and trailing double-quote
character. -/
def trimQuotes (s : String) : String :=
  String.mk (((s.data.dropWhile (· = '"')).reverse.dropWhile (· = '"')).reverse)

/-! ## Annotations: Go `map[string]string` as an association list -/

/-- Object annotations (`map[string]string`); a `nil` map is `[]`. -/
abbrev Annotations := List (String × String)

/-- Map read `m[k]` with its `ok` flag folded into `Option`. -/
def lookupAnn : Annotations → String → Option String
  | [], _ => none
  | (k', v') :: rest, k => if k' = k then some v' else lookupAnn rest k

/-- Map write `m[k] = v`: replace the binding of `k` if present, otherwise
append it (insertion into a `nil` map allocates, i.e. starts from `[]`). -/
def insertAnn : Annotations → String → String → Annotations
  | [], k, v => [(k, v)]
  | (k', v') :: rest, k, v =>
    if k' = k then (k, v) :: rest else (k', v') :: insertAnn rest k v

/-! ## Data model -/

/-- `autoscaling/v1.CrossVersionObjectReference` — the target reference of a
VPA. -/
structure CrossVersionObjectReference where
  kind : String
  name : String
  apiVersion : String
deriving DecidableEq, Repr

/-- `metav1.OwnerReference` (the fields the butler reads and writes). -/
structure OwnerReference where
  apiVersion : String
  kind : String
  name : String
  uid : String
deriving DecidableEq, Repr

/-- A `corev1.ResourceList` holding the two resources the butler manages:
CPU in millicores and memory in base units. -/
structure ResourceAmounts where
  cpuMilli : Nat
  memBytes : Nat
deriving DecidableEq, Repr

/-- `vpav1.ContainerResourcePolicy`. -/
structure ContainerResourcePolicy where
  containerName : String
  mode : Option String
  minAllowed : Option ResourceAmounts
  maxAllowed : Option ResourceAmounts
  controlledResources : Option (List String)
  controlledValues : Option String
deriving DecidableEq, Repr

/-- `vpav1.PodUpdatePolicy`. -/
structure PodUpdatePolicy where
  updateMode : Option String
  minReplicas : Option Int
deriving DecidableEq, Repr

/-- `vpav1.PodResourcePolicy`. -/
structure PodResourcePolicy where
  containerPolicies : List ContainerResourcePolicy
deriving DecidableEq, Repr

/-- `vpav1.VerticalPodAutoscalerSpec` (the fields the butler touches). -/
structure VpaSpec where
  targetRef : Option CrossVersionObjectReference
  updatePolicy : Option PodUpdatePolicy
  resourcePolicy : Option PodResourcePolicy
deriving DecidableEq, Repr

/-- A `vpav1.VerticalPodAutoscaler` object (`ns` is `metadata.namespace`,
which is a reserved word in Lean). -/
structure Vpa where
  name : String
  ns : String
  uid : String
  annotations : Annotations
  ownerReferences : List OwnerReference
  spec : VpaSpec
deriving DecidableEq, Repr

/-- A workload (`Deployment`/`StatefulSet`/`DaemonSet`) as the generic
controller sees it through `client.Object`: `apiVersion` is
`GroupVersionKind().GroupVersion().String()` (e.g. `"apps/v1"`). -/
structure Workload where
  name : String
  ns : String
  kind : String
  apiVersion : String
  uid : String
  annotations : Annotations
  ownerReferences : List OwnerReference
deriving DecidableEq, Repr

/-! ## `internal/common` constants and predicates -/

def annotationManagedBy : String := "managedBy"

def annotationVpaButler : String := "vpa_butler"

/-- `controllers.annotationVpaButlerVersion`. -/
def annotationVpaButlerVersion : String := "cloud.sap/vpa-butler-version"

def DeploymentStr : String := "Deployment"

def StatefulSetStr : String := "StatefulSet"

def DaemonSetStr : String := "DaemonSet"

def MainContainerAnnotationKey : String := "vpa-butler.cloud.sap/main-container"

def UpdateModeAnnotationKey : String := "vpa-butler.cloud.sap/update-mode"

def ControlledValuesAnnotationKey : String := "vpa-butler.cloud.sap/controlled-values"

/-- `common.ManagedByButler`. -/
def ManagedByButler (vpa : Vpa) : Bool :=
  match lookupAnn vpa.annotations annotationManagedBy with
  | some v => v == annotationVpaButler
  | none => false

/-- Modelled from the spec: the slice `common.SupportedUpdatedModes` is
referenced by `main.go` and the VPA controller but the file of package
`common` defining it is not among the sources at hand.  Spec §3 (workload
annotations): the update-mode override "must be one of Off, Initial,
Recreate, Auto". -/
def SupportedUpdatedModes : List String := ["Off", "Initial", "Recreate", "Auto"]

/-- Modelled from the spec: the slice `common.SupportedControlledValues`
is likewise not among the sources at hand.  Spec §3: "one of RequestsOnly,
RequestsAndLimits". -/
def SupportedControlledValues : List String := ["RequestsOnly", "RequestsAndLimits"]

/-! ## Naming (`generic_controller.go`, `vpa_controller.go`) -/

/-- `controllers.maxNameLength`. -/
def maxNameLength : Nat := 63

/-- `controllers.getVpaName`: `"<name>-<lowercase kind>"` with the trim
`name = name[0 : len(name)-len(kind)-1]` applied when
`len(name)+len(kind) > maxNameLength`. -/
def getVpaName (vpaOwner : Workload) : String :=
  let name := vpaOwner.name
  let kind := lowercase vpaOwner.kind
  let name :=
    if name.length + kind.length > maxNameLength then
      takeChars name (name.length - kind.length - 1)
    else
      name
  name ++ "-" ++ kind

/-- `controllers.isNewNamingSchema`. -/
def isNewNamingSchema (name : String) : Bool :=
  ["-daemonset", "-statefulset", "-deployment"].any (fun suf => hasSuffix name suf)

/-! ## Target equality (`vpa_controller.go`) -/

/-- `controllers.equalTarget` on (possibly nil) target references: names
and kinds must agree and the apiVersions are compared as whole strings
when splitting on `/` yields the same number of segments, and by their
final segment otherwise. -/
def equalTarget : Option CrossVersionObjectReference → Option CrossVersionObjectReference → Bool
  | some a, some b =>
    let aSplitted := splitSlash a.apiVersion
    let bSplitted := splitSlash b.apiVersion
    let apiEqual :=
      if aSplitted.length == bSplitted.length then
        a.apiVersion == b.apiVersion
      else
        aSplitted.getLastD "" == bSplitted.getLastD ""
    a.name == b.name && a.kind == b.kind && apiEqual
  | _, _ => false

/-! ## Owner references (`controllerutil.SetOwnerReference`) -/

/-- `schema.ParseGroupVersion(...).Group`: the part before the `/` of an
apiVersion, or `""` when there is no group. -/
def apiGroupOf (apiVersion : String) : String :=
  match splitSlash apiVersion with
  | [g, _] => g
  | _ => ""

/-- `controllerutil.referSameObject`: owner references denote the same
object when group, kind and name agree. -/
def referSameObject (a b : OwnerReference) : Bool :=
  apiGroupOf a.apiVersion == apiGroupOf b.apiVersion && a.kind == b.kind && a.name == b.name

/-- `controllerutil.upsertOwnerRef`: replace the first reference to the
same object, otherwise append. -/
def upsertOwnerRef (r : OwnerReference) : List OwnerReference → List OwnerReference
  | [] => [r]
  | x :: xs => if referSameObject x r then r :: xs else x :: upsertOwnerRef r xs

/-- `controllerutil.SetOwnerReference(vpaOwner, vpa, scheme)`: the
scheme-lookup failure branch cannot fire for the three registered workload
kinds, so the embedding is total. -/
def SetOwnerReference (vpaOwner : Workload) (vpa : Vpa) : Vpa :=
  { vpa with ownerReferences :=
      (upsertOwnerRef ⟨vpaOwner.apiVersion, vpaOwner.kind, vpaOwner.name, vpaOwner.uid⟩
        vpa.ownerReferences) }

/-! ## The shaper (`vpa_controller.go: configureVpa`) -/

/-- Modelled from the spec: `common.ConfigureVpaBaseline` is called by both
controllers but the file of package `common` defining it is not among the
sources at hand.  Spec §4.2/§4.3: the baseline sets the target reference to
the workload (`kind`, `name`, `apiVersion`), the update policy to the given
update mode, and the `managedBy = vpa_butler` marker annotation. -/
def ConfigureVpaBaseline (vpa : Vpa) (vpaOwner : Workload) (updateMode : String) : Vpa :=
  { vpa with
    spec := { vpa.spec with
      targetRef := some ⟨vpaOwner.kind, vpaOwner.name, vpaOwner.apiVersion⟩
      updatePolicy := some ⟨some updateMode, none⟩ }
    annotations := insertAnn vpa.annotations annotationManagedBy annotationVpaButler }

/-- The process-wide defaults (`common.VpaUpdateMode`,
`common.VpaControlledValues`, `VpaController.MinAllowedCPU/Memory/Version`),
read-only after startup. -/
structure ButlerDefaults where
  vpaUpdateMode : String
  vpaControlledValues : String
  minAllowedCPU : Nat
  minAllowedMemory : Nat
  version : String
deriving DecidableEq, Repr

/-- `controllers.replicatedObject`: the fetched target plus its replica
count (`nil` for DaemonSets). -/
structure ReplicatedObject where
  object : Workload
  replicas : Option Int
deriving DecidableEq, Repr

/-- `autoModes` of `configureVpa`. -/
def autoModes : List String := ["Auto", "Recreate"]

/-- `[]v1.ResourceName{v1.ResourceCPU, v1.ResourceMemory}`. -/
def resourceListCpuMem : List String := ["cpu", "memory"]

/-- Write `vpa.Spec.UpdatePolicy.UpdateMode`; `configureVpa` only does so
after the baseline made the update policy non-nil, which the `getD`
default mirrors harmlessly. -/
def setUpdateMode (vpa : Vpa) (m : String) : Vpa :=
  { vpa with spec := { vpa.spec with
      updatePolicy := some { (vpa.spec.updatePolicy.getD ⟨none, none⟩) with updateMode := some m } } }

/-- Write `vpa.Spec.UpdatePolicy.MinReplicas` (same non-nil remark). -/
def setMinReplicas (vpa : Vpa) (mr : Option Int) : Vpa :=
  { vpa with spec := { vpa.spec with
      updatePolicy := some { (vpa.spec.updatePolicy.getD ⟨none, none⟩) with minReplicas := mr } } }

/-- Body of the `for i := range ContainerPolicies` loop of `configureVpa`:
overwrite controlled resources, controlled values and min-allowed in place,
keeping name, mode and max-allowed. -/
def updatedContainerPolicy (ctrl : ButlerDefaults) (ctrlValues : String)
    (current : ContainerResourcePolicy) : ContainerResourcePolicy :=
  { current with
    controlledResources := some resourceListCpuMem
    controlledValues := some ctrlValues
    minAllowed := some ⟨ctrl.minAllowedCPU, ctrl.minAllowedMemory⟩ }

/-- The fresh `"*"` container policy `configureVpa` installs when the
resource policy is nil or empty. -/
def freshContainerPolicy (ctrl : ButlerDefaults) (ctrlValues : String) : ContainerResourcePolicy :=
  { containerName := "*"
    mode := none
    minAllowed := some ⟨ctrl.minAllowedCPU, ctrl.minAllowedMemory⟩
    maxAllowed := none
    controlledResources := some resourceListCpuMem
    controlledValues := some ctrlValues }

/-- The update-mode override block of `configureVpa` (the first `if` on
the workload annotations). -/
def applyUpdateModeOverride (ownerAnns : Annotations) (vpa : Vpa) : Vpa :=
  match lookupAnn ownerAnns UpdateModeAnnotationKey with
  | some updateModeStr =>
    if SupportedUpdatedModes.contains updateModeStr then setUpdateMode vpa updateModeStr
    else vpa
  | none => vpa

/-- The min-replicas block of `configureVpa`: clear `MinReplicas`, then
set it to 1 when the (non-nil) update mode is `Auto` or `Recreate` and
the target reports at most one replica. -/
def applyMinReplicasRule (replicas : Option Int) (vpa : Vpa) : Vpa :=
  let vpa := setMinReplicas vpa none
  match (vpa.spec.updatePolicy.getD ⟨none, none⟩).updateMode with
  | some m =>
    if autoModes.contains m then
      match replicas with
      | some r => if r ≤ 1 then setMinReplicas vpa (some 1) else vpa
      | none => vpa
    else vpa
  | none => vpa

/-- The controlled-values block of `configureVpa` (annotation override
when present and supported, default otherwise). -/
def effectiveControlledValues (ctrl : ButlerDefaults) (w : Workload) : String :=
  match lookupAnn w.annotations ControlledValuesAnnotationKey with
  | some ctrlValuesStr =>
    if SupportedControlledValues.contains ctrlValuesStr then ctrlValuesStr
    else ctrl.vpaControlledValues
  | none => ctrl.vpaControlledValues

/-- The container-policies block of `configureVpa`: install the fresh
`"*"` policy when the resource policy is nil or empty, otherwise rewrite
each existing policy in place. -/
def applyResourcePolicy (ctrl : ButlerDefaults) (ctrlValues : String) (vpa : Vpa) : Vpa :=
  match vpa.spec.resourcePolicy with
  | none =>
    { vpa with spec := { vpa.spec with
        resourcePolicy := some ⟨[freshContainerPolicy ctrl ctrlValues]⟩ } }
  | some rp =>
    if rp.containerPolicies.isEmpty then
      { vpa with spec := { vpa.spec with
          resourcePolicy := some ⟨[freshContainerPolicy ctrl ctrlValues]⟩ } }
    else
      { vpa with spec := { vpa.spec with
          resourcePolicy := some
            ⟨rp.containerPolicies.map (updatedContainerPolicy ctrl ctrlValues)⟩ } }

/-- `VpaController.configureVpa` (`vpa_controller.go`): baseline, update
mode override from the workload annotation, min-replicas rule, controlled
values override, container policy rewrite, version annotation, owner
reference. -/
def configureVpa (ctrl : ButlerDefaults) (vpaOwner : ReplicatedObject) (vpa : Vpa) : Vpa :=
  let vpa := ConfigureVpaBaseline vpa vpaOwner.object ctrl.vpaUpdateMode
  let vpa := applyUpdateModeOverride vpaOwner.object.annotations vpa
  let vpa := applyMinReplicasRule vpaOwner.replicas vpa
  let ctrlValues := effectiveControlledValues ctrl vpaOwner.object
  let vpa := applyResourcePolicy ctrl ctrlValues vpa
  let vpa := { vpa with
    annotations := insertAnn vpa.annotations annotationVpaButlerVersion ctrl.version }
  SetOwnerReference vpaOwner.object vpa

/-! ## The workload controller (`unnamed/part_011`, newest generic
controller revision) -/

/-- The cross-version reference under which a workload appears as a VPA
target (built in `shouldServeVpa` from the workload's group-version). -/
def selfRef (w : Workload) : CrossVersionObjectReference :=
  ⟨w.kind, w.name, w.apiVersion⟩

/-- The exact field-wise comparison `shouldServeVpa` performs between a
VPA target reference and a candidate owner reference. -/
def exactTargetMatch (tr owner : CrossVersionObjectReference) : Bool :=
  tr.name == owner.name && tr.kind == owner.kind && tr.apiVersion == owner.apiVersion

/-- `GenericController.shouldServeVpa`: the workload is served unless some
VPA in the namespace that is not managed by the butler has a target
reference exactly matching the workload itself or one of its owner
references. -/
def shouldServeVpa (vpaOwner : Workload) (vpas : List Vpa) : Bool :=
  let ownerRefs :=
    selfRef vpaOwner ::
      vpaOwner.ownerReferences.map (fun owner => (⟨owner.kind, owner.name, owner.apiVersion⟩ :
        CrossVersionObjectReference))
  ! vpas.any (fun vpa =>
      match vpa.spec.targetRef with
      | none => false
      | some tr =>
        ! ManagedByButler vpa && ownerRefs.any (fun owner => exactTargetMatch tr owner))

/-- The apiserver writes a reconcile step may issue. -/
inductive ButlerAction where
  | deleteVpa (vpa : Vpa)
  | createVpa (vpa : Vpa)
  | patchVpa (before after : Vpa)
deriving DecidableEq, Repr

/-- `client.Get` of a VPA by namespace and name over the listed objects
(names are unique per namespace). -/
def getVpaInNamespace (vpas : List Vpa) (ns name : String) : Option Vpa :=
  vpas.find? (fun v => v.ns == ns && v.name == name)

/-- `GenericController.ensureVpaDeleted`: fetch the VPA carrying the
served name of the workload and delete it if present — without inspecting
its annotations. -/
def ensureVpaDeleted (vpaOwner : Workload) (vpas : List Vpa) : List ButlerAction :=
  match getVpaInNamespace vpas vpaOwner.ns (getVpaName vpaOwner) with
  | none => []
  | some vpa => [.deleteVpa vpa]

/-- A zero-valued `vpav1.VerticalPodAutoscaler` with namespace and name
set, as `Reconcile` allocates before the `Get`. -/
def emptyVpaNamed (ns name : String) : Vpa :=
  ⟨name, ns, "", [], [], ⟨none, none, none⟩⟩

/-- `GenericController.Reconcile` for an existing workload `inst`, as the
list of apiserver writes it issues: serve-or-tear-down decision, then
either deletion of the VPA under the served name, creation of the baseline
VPA (update mode `Off`), or nothing when it already exists. -/
def genericReconcile (inst : Workload) (vpas : List Vpa) : List ButlerAction :=
  if shouldServeVpa inst vpas then
    match getVpaInNamespace vpas inst.ns (getVpaName inst) with
    | some _ => []
    | none =>
      [.createVpa (ConfigureVpaBaseline (emptyVpaNamed inst.ns (getVpaName inst)) inst "Off")]
  else
    ensureVpaDeleted inst vpas

/-! ## Startup validation (`cmd/vpa_butler/main.go: setGlobals`) -/

/-- The `--default-vpa-update-mode` arm of `setGlobals`: quotes are
stripped, then the mode is matched against the three switch cases.
`some m` models assigning `common.VpaUpdateMode = m`; `none` models the
`default` branch, which prints a diagnostic on stdout and calls
`os.Exit(1)`. -/
def setGlobalsUpdateMode (defaultVpaUpdateMode : String) : Option String :=
  let trimmed := trimQuotes defaultVpaUpdateMode
  if trimmed == "Initial" then some "Initial"
  else if trimmed == "Recreate" then some "Recreate"
  else if trimmed == "Off" then some "Off"
  else none

/-! ## Nodes, pod templates and the filter library (`internal/filter`) -/

/-- `corev1.Taint` (the fields the filter reads). -/
structure Taint where
  key : String
  value : String
  effect : String
deriving DecidableEq, Repr

/-- `corev1.Toleration`. -/
structure Toleration where
  key : String
  operator : String
  value : String
  effect : String
deriving DecidableEq, Repr

/-- A pod template (`corev1.PodSpec`) reduced to the fields the butler
reads: the pinned node name, the tolerations, and the container names. -/
structure PodSpec where
  nodeName : String
  tolerations : List Toleration
  containers : List String
deriving DecidableEq, Repr

/-- `corev1.Node` (the fields the butler reads).  Pod-affinity label data
lives behind the abstract affinity matcher below. -/
structure Node where
  name : String
  unschedulable : Bool
  taints : List Taint
  allocatable : ResourceAmounts
deriving DecidableEq, Repr

/-- `filter.TargetedVpa`.  Of the Go struct's fields (`Vpa`, `PodSpec`,
`Selector`, `ObjectMeta`, `Type`) the embedded pure functions below read
only the pod template, so only it is carried. -/
structure TargetedVpa where
  podSpec : PodSpec
deriving DecidableEq, Repr

/-- The two scheduling predicates the filter library delegates to
`k8s.io/component-helpers` (external to this repository): taint-toleration
matching (`corev1.Toleration.ToleratesTaint`) and required-node-affinity
matching (`GetRequiredNodeAffinity(pod).Match(node)`, which can fail on a
malformed selector).  The filter's own logic is proved for every behaviour
of these helpers. -/
structure SchedulingHelpers where
  tolerates : Toleration → Taint → Bool
  affinityMatch : PodSpec → Node → Except String Bool

/-- `doNotScheduleTaintsFilterFunc` of `filter.TaintToleration`. -/
def doNotScheduleTaint (t : Taint) : Bool :=
  t.effect == "NoSchedule" || t.effect == "NoExecute"

/-- `v1helper.FindMatchingUntoleratedTaint`, reduced to the `untolerated`
flag the filter consumes: some taint passing the inclusion filter is
tolerated by none of the tolerations. -/
def FindMatchingUntoleratedTaint (H : SchedulingHelpers) (taints : List Taint)
    (tolerations : List Toleration) (inclusionFilter : Taint → Bool) : Bool :=
  ((taints.filter inclusionFilter).find?
    (fun taint => ! tolerations.any (fun tol => H.tolerates tol taint))).isSome

/-- `filter.Schedulable`. -/
def Schedulable (nodes : List Node) : List Node :=
  nodes.filter (fun node => ! node.unschedulable)

/-- `filter.NodeName`: pass-through without a pinned node name, otherwise
the first node carrying that name (or nothing). -/
def NodeName (target : TargetedVpa) (nodes : List Node) : Except String (List Node) :=
  if target.podSpec.nodeName == "" then
    .ok nodes
  else
    match nodes.find? (fun node => node.name == target.podSpec.nodeName) with
    | some node => .ok [node]
    | none => .ok []

/-- `filter.TaintToleration`: keep a node iff it has no untolerated
`NoSchedule`/`NoExecute` taint. -/
def TaintToleration (H : SchedulingHelpers) (target : TargetedVpa) (nodes : List Node) :
    Except String (List Node) :=
  .ok (nodes.filter (fun node =>
    ! FindMatchingUntoleratedTaint H node.taints target.podSpec.tolerations doNotScheduleTaint))

/-- `filter.NodeAffinity`: keep the nodes the required node affinity
matches, aborting on the first matcher error. -/
def NodeAffinity (H : SchedulingHelpers) (target : TargetedVpa) :
    List Node → Except String (List Node)
  | [] => .ok []
  | current :: rest =>
    match H.affinityMatch target.podSpec current with
    | .error e => .error e
    | .ok isMatch =>
      match NodeAffinity H target rest with
      | .error e => .error e
      | .ok tail => .ok (if isMatch then current :: tail else tail)

/-- `filter.Evaluate`: the `filters` slice `[NodeName, TaintToleration,
NodeAffinity]` folded in order with short-circuit on error. -/
def Evaluate (H : SchedulingHelpers) (target : TargetedVpa) (nodes : List Node) :
    Except String (List Node) :=
  match NodeName target nodes with
  | .error e => .error e
  | .ok next =>
    match TaintToleration H target next with
    | .error e => .error e
    | .ok next => NodeAffinity H target next

/-! ## The capacity engine (`vpa_runnable.go`) -/

/-- Modelled from the spec: `common.NamedResourceList` is produced by the
distribution functions but the file of package `common` defining it is
not among the sources at hand; its two fields are fixed by every use in
`vpa_runnable.go` (a container name and the resource list destined for
`maxAllowed`). -/
structure NamedResourceList where
  containerName : String
  resources : ResourceAmounts
deriving DecidableEq, Repr

/-- `controllers.scaleDivisor`. -/
def scaleDivisor : Nat := 100

/-- `controllers.scaleQuantityMilli`: `q.MilliValue() * percent / 100`
(Go integer division truncates). -/
def scaleQuantityMilli (milli percent : Nat) : Nat :=
  milli * percent / scaleDivisor

/-- `controllers.scaleQuantity`: `q.Value() * percent / 100`. -/
def scaleQuantity (value percent : Nat) : Nat :=
  value * percent / scaleDivisor

/-- `controllers.resourceDistributionParams`: the targeted view, the
chosen node, and the configured capacity percentage. -/
structure ResourceDistributionParams where
  target : TargetedVpa
  largest : Node
  capacityPercent : Nat
deriving DecidableEq, Repr

/-- `controllers.uniformDistribution`: one `"*"` entry granting each
container `capacityPercent / len(containers)` percent of the chosen
node's allocatable CPU and memory. -/
def uniformDistribution (params : ResourceDistributionParams) : List NamedResourceList :=
  let containers := params.target.podSpec.containers.length
  [⟨"*", ⟨scaleQuantityMilli params.largest.allocatable.cpuMilli (params.capacityPercent / containers),
          scaleQuantity params.largest.allocatable.memBytes (params.capacityPercent / containers)⟩⟩]

/-- `controllers.asymmetricDistribution`: with `C = len(containers)`,
`totalWeight = 4·(C−1)` and `mainWeight = 3·(C−1)`, the main container
receives `capacityPercent·mainWeight/totalWeight` percent and every other
container (the `"*"` entry) `capacityPercent/totalWeight` percent. -/
def asymmetricDistribution (mainContainer : String) (params : ResourceDistributionParams) :
    List NamedResourceList :=
  let totalFraction := 4
  let mainFraction := 3
  let containers := params.target.podSpec.containers
  let totalWeight := totalFraction * (containers.length - 1)
  let mainWeight := mainFraction * (containers.length - 1)
  [⟨mainContainer,
    ⟨scaleQuantityMilli params.largest.allocatable.cpuMilli
        (params.capacityPercent * mainWeight / totalWeight),
     scaleQuantity params.largest.allocatable.memBytes
        (params.capacityPercent * mainWeight / totalWeight)⟩⟩,
   ⟨"*",
    ⟨scaleQuantityMilli params.largest.allocatable.cpuMilli
        (params.capacityPercent / totalWeight),
     scaleQuantity params.largest.allocatable.memBytes
        (params.capacityPercent / totalWeight)⟩⟩]

/-- The zero value `var maxNode corev1.Node` starts from: empty name, no
allocatable resources. -/
def zeroNode : Node :=
  ⟨"", false, [], ⟨0, 0⟩⟩

/-- `controllers.maxByMemory`: fold keeping the first node strictly
exceeding the accumulator's allocatable memory, seeded with the zero
node. -/
def maxByMemory (nodes : List Node) : Node :=
  nodes.foldl
    (fun maxNode node =>
      if maxNode.allocatable.memBytes < node.allocatable.memBytes then node else maxNode)
    zeroNode

/-- `resource.MustParse "128Ti"` in bytes. -/
def mem128Ti : Nat := 140737488355328

/-- `controllers.minByMemory`: fold keeping the first node strictly below
the accumulator's allocatable memory, seeded with a zero node carrying a
128Ti memory sentinel. -/
def minByMemory (nodes : List Node) : Node :=
  nodes.foldl
    (fun minNode node =>
      if node.allocatable.memBytes < minNode.allocatable.memBytes then node else minNode)
    { zeroNode with allocatable := ⟨0, mem128Ti⟩ }

/-- The representative-node choice of
`VpaRunnable.reconcileMaxResource`: the memory-minimal viable node for a
DaemonSet target, the memory-maximal one otherwise. -/
def representativeNode (targetIsDaemonSet : Bool) (viable : List Node) : Node :=
  if targetIsDaemonSet then minByMemory viable else maxByMemory viable

/-! ## C1: the butler and hand-crafted VPAs -/

/-- The workload of the C1 scenario: a plain `apps/v1` Deployment. -/
def c1Workload : Workload :=
  ⟨"myapp", "default", "Deployment", "apps/v1", "uid-w", [], []⟩

/-- The hand-crafted VPA of the C1 scenario: authored by a user (no
`managedBy` annotation), targeting the Deployment, and named exactly like
the VPA the butler would serve for it. -/
def c1HandVpa : Vpa :=
  ⟨"myapp-deployment", "default", "uid-h", [], [],
    ⟨some ⟨"Deployment", "myapp", "apps/v1"⟩, none, none⟩⟩

/-- C1: refuted on the code.  The spec demands that no reconcile step ever
deletes or mutates a hand-crafted VPA, but reconciling the Deployment
`myapp` in a namespace whose only VPA is the user's hand-crafted
`myapp-deployment` (targeting that Deployment) makes the workload
controller delete the hand-crafted VPA: `shouldServeVpa` finds the
hand-crafted conflict and `ensureVpaDeleted` deletes whatever VPA carries
the served name without checking the `managedBy` marker.  The deleted VPA
conforms to the new naming schema, so the legacy-name exception does not
apply. -/
theorem genericReconcile_deletes_handcrafted :
    genericReconcile c1Workload [c1HandVpa] = [.deleteVpa c1HandVpa]
    ∧ ManagedByButler c1HandVpa = false
    ∧ isNewNamingSchema c1HandVpa.name = true := by
  decide

/-! ## C2: the served VPA name -/

/-- The workload of the C2 boundary case: a Deployment whose 53-character
name together with the 10-character kind suffix sums to exactly 63. -/
def c2Workload : Workload :=
  ⟨String.mk (List.replicate 53 'a'), "default", "Deployment", "apps/v1", "uid", [], []⟩

/-- C2: refuted on the code.  `getVpaName` is meant to truncate the served
name to at most `maxNameLength = 63` characters, but its guard compares
`len(name) + len(kind)` without the connecting hyphen, so a 53-character
Deployment name yields a 64-character VPA name (and for names longer than
63 characters the trim `name[0 : len(name)-len(kind)-1]` keeps the total
at the original name length).  The second conjunct shows the truncation
guard does not even fire here. -/
theorem getVpaName_length_exceeds_63 :
    (getVpaName c2Workload).length = 64
    ∧ c2Workload.name.length + (lowercase c2Workload.kind).length ≤ maxNameLength := by
  decide

/-! ## C3: target-reference equality -/

/-- First reference of the C3 counterexample (`apps/v1`). -/
def c3RefA : CrossVersionObjectReference := ⟨"Deployment", "app", "apps/v1"⟩

/-- Second reference of the C3 counterexample: same name and kind, same
final apiVersion segment, but a different group prefix (`other/v1`). -/
def c3RefB : CrossVersionObjectReference := ⟨"Deployment", "app", "other/v1"⟩

/-- C3, counterexample: the claim says final-segment agreement suffices
even when both apiVersions carry a group prefix, but `equalTarget`
compares the apiVersions as whole strings whenever splitting on `/` gives
the same number of segments, so `apps/v1` does not match `other/v1`
despite equal names, kinds, and final segments. -/
theorem equalTarget_groupPrefix_counterexample :
    equalTarget (some c3RefA) (some c3RefB) = false
    ∧ c3RefA.name = c3RefB.name
    ∧ c3RefA.kind = c3RefB.kind
    ∧ (splitSlash c3RefA.apiVersion).getLastD "" = (splitSlash c3RefB.apiVersion).getLastD "" := by
  decide

/-- C3, amended: `equalTarget` is true iff names and kinds agree, the
final apiVersion segments agree, and additionally — when both apiVersions
split into the same number of segments — the apiVersions are exactly
equal (so `apps/v1` matches `v1`, but not `other/v1`). -/
theorem equalTarget_iff (a b : CrossVersionObjectReference) :
    equalTarget (some a) (some b) = true ↔
      a.name = b.name ∧ a.kind = b.kind ∧
      (splitSlash a.apiVersion).getLastD "" = (splitSlash b.apiVersion).getLastD "" ∧
      ((splitSlash a.apiVersion).length = (splitSlash b.apiVersion).length →
        a.apiVersion = b.apiVersion) := by
  have hunfold : equalTarget (some a) (some b) =
      (a.name == b.name && a.kind == b.kind &&
        (if (splitSlash a.apiVersion).length == (splitSlash b.apiVersion).length then
          a.apiVersion == b.apiVersion
        else
          (splitSlash a.apiVersion).getLastD "" == (splitSlash b.apiVersion).getLastD "")) := rfl
  rw [hunfold]
  by_cases h : (splitSlash a.apiVersion).length = (splitSlash b.apiVersion).length
  · have hb : ((splitSlash a.apiVersion).length == (splitSlash b.apiVersion).length) = true := by
      simpa using h
    simp only [hb, if_true, Bool.and_eq_true, beq_iff_eq]
    constructor
    · rintro ⟨⟨h1, h2⟩, h3⟩
      exact ⟨h1, h2, by rw [h3], fun _ => h3⟩
    · rintro ⟨h1, h2, _, h4⟩
      exact ⟨⟨h1, h2⟩, h4 h⟩
  · have hb : ((splitSlash a.apiVersion).length == (splitSlash b.apiVersion).length) = false := by
      simpa using h
    simp only [hb, Bool.false_eq_true, if_false, Bool.and_eq_true, beq_iff_eq]
    constructor
    · rintro ⟨⟨h1, h2⟩, h3⟩
      exact ⟨h1, h2, h3, fun hc => absurd hc h⟩
    · rintro ⟨h1, h2, h3, _⟩
      exact ⟨⟨h1, h2⟩, h3⟩

/-! ## C9: the representative node -/

/-- Helper for the max-fold of `maxByMemory`: the fold result is the
accumulator or a list element, its memory dominates the accumulator's,
and it dominates every list element. -/
theorem foldMax_invariant (nodes : List Node) (acc : Node) :
    (nodes.foldl
        (fun maxNode node =>
          if maxNode.allocatable.memBytes < node.allocatable.memBytes then node else maxNode)
        acc = acc
      ∨ nodes.foldl
        (fun maxNode node =>
          if maxNode.allocatable.memBytes < node.allocatable.memBytes then node else maxNode)
        acc ∈ nodes)
    ∧ acc.allocatable.memBytes ≤
        (nodes.foldl
          (fun maxNode node =>
            if maxNode.allocatable.memBytes < node.allocatable.memBytes then node else maxNode)
          acc).allocatable.memBytes
    ∧ ∀ n ∈ nodes, n.allocatable.memBytes ≤
        (nodes.foldl
          (fun maxNode node =>
            if maxNode.allocatable.memBytes < node.allocatable.memBytes then node else maxNode)
          acc).allocatable.memBytes := by
  induction nodes generalizing acc with
  | nil => exact ⟨Or.inl rfl, Nat.le_refl _, by intro n hn; cases hn⟩
  | cons head tail ih =>
    obtain ⟨ihMem, ihAcc, ihAll⟩ :=
      ih (if acc.allocatable.memBytes < head.allocatable.memBytes then head else acc)
    refine ⟨?_, ?_, ?_⟩
    · rcases ihMem with hEq | hIn
      · rw [List.foldl_cons, hEq]
        by_cases hc : acc.allocatable.memBytes < head.allocatable.memBytes
        · exact Or.inr (by simp [hc])
        · exact Or.inl (by simp [hc])
      · exact Or.inr (List.mem_cons_of_mem _ hIn)
    · refine Nat.le_trans ?_ ihAcc
      by_cases hc : acc.allocatable.memBytes < head.allocatable.memBytes
      · simp [hc]
        exact Nat.le_of_lt hc
      · simp [hc]
    · intro n hn
      rcases List.mem_cons.mp hn with rfl | hTail
      · refine Nat.le_trans ?_ ihAcc
        by_cases hc : acc.allocatable.memBytes < n.allocatable.memBytes
        · simp [hc]
        · simp [hc]
          exact Nat.le_of_not_lt hc
      · exact ihAll n hTail

/-- Helper for the min-fold of `minByMemory`, dual to `foldMax_invariant`. -/
theorem foldMin_invariant (nodes : List Node) (acc : Node) :
    (nodes.foldl
        (fun minNode node =>
          if node.allocatable.memBytes < minNode.allocatable.memBytes then node else minNode)
        acc = acc
      ∨ nodes.foldl
        (fun minNode node =>
          if node.allocatable.memBytes < minNode.allocatable.memBytes then node else minNode)
        acc ∈ nodes)
    ∧ (nodes.foldl
        (fun minNode node =>
          if node.allocatable.memBytes < minNode.allocatable.memBytes then node else minNode)
        acc).allocatable.memBytes ≤ acc.allocatable.memBytes
    ∧ ∀ n ∈ nodes,
        (nodes.foldl
          (fun minNode node =>
            if node.allocatable.memBytes < minNode.allocatable.memBytes then node else minNode)
          acc).allocatable.memBytes ≤ n.allocatable.memBytes := by
  induction nodes generalizing acc with
  | nil => exact ⟨Or.inl rfl, Nat.le_refl _, by intro n hn; cases hn⟩
  | cons head tail ih =>
    obtain ⟨ihMem, ihAcc, ihAll⟩ :=
      ih (if head.allocatable.memBytes < acc.allocatable.memBytes then head else acc)
    refine ⟨?_, ?_, ?_⟩
    · rcases ihMem with hEq | hIn
      · rw [List.foldl_cons, hEq]
        by_cases hc : head.allocatable.memBytes < acc.allocatable.memBytes
        · exact Or.inr (by simp [hc])
        · exact Or.inl (by simp [hc])
      · exact Or.inr (List.mem_cons_of_mem _ hIn)
    · refine Nat.le_trans ihAcc ?_
      by_cases hc : head.allocatable.memBytes < acc.allocatable.memBytes
      · simp [hc]
        exact Nat.le_of_lt hc
      · simp [hc]
    · intro n hn
      rcases List.mem_cons.mp hn with rfl | hTail
      · refine Nat.le_trans ihAcc ?_
        by_cases hc : n.allocatable.memBytes < acc.allocatable.memBytes
        · simp [hc]
        · simp [hc]
          exact Nat.le_of_not_lt hc
      · exact ihAll n hTail

/-- The sole viable node of the C9 counterexample: a named node whose
allocatable memory is zero. -/
def c9Node : Node := ⟨"big", false, [], ⟨1000, 0⟩⟩

/-- C9, counterexample: for the non-empty viable list `[c9Node]` with a
non-DaemonSet target, the representative node is *not* an element of the
list — `maxByMemory` only replaces its zero-valued seed on a strict
memory increase, so a node with zero allocatable memory never displaces
the anonymous seed node. -/
theorem representativeNode_counterexample :
    representativeNode false [c9Node] ∉ [c9Node]
    ∧ ([c9Node] : List Node) ≠ [] := by
  decide

/-- C9, amended: the representative node is an element of the viable list
(and extremal in it) provided some viable node has non-zero allocatable
memory (non-DaemonSet case) respectively allocatable memory below the
128Ti seed sentinel (DaemonSet case). -/
theorem representativeNode_mem (isDS : Bool) (nodes : List Node) :
    (isDS = false → (∃ n ∈ nodes, 0 < n.allocatable.memBytes) →
      representativeNode isDS nodes ∈ nodes ∧
        ∀ n ∈ nodes,
          n.allocatable.memBytes ≤ (representativeNode isDS nodes).allocatable.memBytes)
    ∧ (isDS = true → (∃ n ∈ nodes, n.allocatable.memBytes < mem128Ti) →
      representativeNode isDS nodes ∈ nodes ∧
        ∀ n ∈ nodes,
          (representativeNode isDS nodes).allocatable.memBytes ≤ n.allocatable.memBytes) := by
  constructor
  · rintro rfl ⟨n, hn, hpos⟩
    obtain ⟨hMem, -, hAll⟩ := foldMax_invariant nodes zeroNode
    have hrep : representativeNode false nodes =
        nodes.foldl
          (fun maxNode node =>
            if maxNode.allocatable.memBytes < node.allocatable.memBytes then node else maxNode)
          zeroNode := rfl
    rw [hrep]
    rcases hMem with hEq | hIn
    · exfalso
      have hle := hAll n hn
      rw [hEq] at hle
      simp only [zeroNode] at hle
      omega
    · exact ⟨hIn, hAll⟩
  · rintro rfl ⟨n, hn, hlt⟩
    obtain ⟨hMem, -, hAll⟩ :=
      foldMin_invariant nodes { zeroNode with allocatable := ⟨0, mem128Ti⟩ }
    have hrep : representativeNode true nodes =
        nodes.foldl
          (fun minNode node =>
            if node.allocatable.memBytes < minNode.allocatable.memBytes then node else minNode)
          { zeroNode with allocatable := ⟨0, mem128Ti⟩ } := rfl
    rw [hrep]
    rcases hMem with hEq | hIn
    · exfalso
      have hle := hAll n hn
      rw [hEq] at hle
      simp only [zeroNode, mem128Ti] at hle
      simp only [mem128Ti] at hlt
      omega
    · exact ⟨hIn, hAll⟩

/-- The node instantiating the C9 witness. -/
def c9WitnessNode : Node := ⟨"n", false, [], ⟨500, 1024⟩⟩

/-- C9, witness: both hypotheses of the amended theorem are satisfiable,
for the singleton list holding a node with 1024 bytes of memory. -/
theorem representativeNode_mem_witness :
    representativeNode false [c9WitnessNode] ∈ [c9WitnessNode]
    ∧ representativeNode true [c9WitnessNode] ∈ [c9WitnessNode] :=
  ⟨((representativeNode_mem false [c9WitnessNode]).1 rfl
      ⟨c9WitnessNode, List.mem_singleton.mpr rfl, by decide⟩).1,
   ((representativeNode_mem true [c9WitnessNode]).2 rfl
      ⟨c9WitnessNode, List.mem_singleton.mpr rfl, by decide⟩).1⟩

/-! ## C10: startup validation of the default update mode -/

/-- C10, counterexample: the claim says the flag accepts `Auto`, yet
`setGlobals` has switch cases only for `Initial`, `Recreate` and `Off`, so
`Auto` (unquoted, and listed among the spec's supported update modes)
falls into the `default` branch that exits the process with code 1. -/
theorem setGlobalsUpdateMode_auto_counterexample :
    setGlobalsUpdateMode "Auto" = none
    ∧ trimQuotes "Auto" = "Auto"
    ∧ SupportedUpdatedModes.contains "Auto" = true := by
  decide

/-- C10, amended: after stripping surrounding double quotes the flag
accepts exactly `Initial`, `Recreate` and `Off` (keeping the stripped
value); every other value — including `Auto` — reaches the diagnostic and
`os.Exit(1)` branch. -/
theorem setGlobalsUpdateMode_spec (s : String) :
    setGlobalsUpdateMode s =
      (if trimQuotes s ∈ (["Initial", "Recreate", "Off"] : List String) then
        some (trimQuotes s)
      else
        none) := by
  simp only [setGlobalsUpdateMode]
  by_cases h1 : trimQuotes s = "Initial"
  · simp [h1]
  · by_cases h2 : trimQuotes s = "Recreate"
    · simp [h1, h2]
    · by_cases h3 : trimQuotes s = "Off"
      · simp [h1, h2, h3]
      · simp [h1, h2, h3]

/-! ## C4: the eligibility decision -/

/-- The workload of the C4 counterexample (`apps/v1` Deployment). -/
def c4Workload : Workload :=
  ⟨"app", "default", "Deployment", "apps/v1", "uid-w", [], []⟩

/-- The hand-crafted VPA of the C4 counterexample: it targets the
Deployment under the group-less apiVersion `v1`. -/
def c4HandVpa : Vpa :=
  ⟨"custom", "default", "uid-h", [], [],
    ⟨some ⟨"Deployment", "app", "v1"⟩, none, none⟩⟩

/-- C4, counterexample: the claim says the eligibility check matches
target references with the §3 final-segment equality, under which the
hand-crafted VPA's `v1` target matches the `apps/v1` workload (third
conjunct, via `equalTarget`); yet `shouldServeVpa` compares apiVersions
as exact strings and still serves the workload. -/
theorem shouldServeVpa_apiVersion_counterexample :
    shouldServeVpa c4Workload [c4HandVpa] = true
    ∧ ManagedByButler c4HandVpa = false
    ∧ equalTarget c4HandVpa.spec.targetRef (some (selfRef c4Workload)) = true := by
  decide

/-- C4, amended: `shouldServeVpa` returns false exactly when some listed
VPA without the butler marker has a target reference that matches the
workload itself or one of its owner references *field-for-field* — names,
kinds and apiVersion strings exactly equal (the workload contributing its
group-qualified apiVersion), not the §3 final-segment equality. -/
theorem shouldServeVpa_eq_false_iff (w : Workload) (vpas : List Vpa) :
    shouldServeVpa w vpas = false ↔
      ∃ vpa ∈ vpas, ManagedByButler vpa = false ∧
        ∃ tr, vpa.spec.targetRef = some tr ∧
          (exactTargetMatch tr (selfRef w) = true ∨
            ∃ o ∈ w.ownerReferences,
              exactTargetMatch tr ⟨o.kind, o.name, o.apiVersion⟩ = true) := by
  have hunfold : shouldServeVpa w vpas =
      ! vpas.any (fun vpa =>
          match vpa.spec.targetRef with
          | none => false
          | some tr =>
            ! ManagedByButler vpa &&
              ((selfRef w ::
                  w.ownerReferences.map (fun owner =>
                    (⟨owner.kind, owner.name, owner.apiVersion⟩ :
                      CrossVersionObjectReference))).any
                (fun owner => exactTargetMatch tr owner))) := rfl
  rw [hunfold, Bool.not_eq_false', List.any_eq_true]
  constructor
  · rintro ⟨vpa, hmem, hp⟩
    refine ⟨vpa, hmem, ?_⟩
    cases htr : vpa.spec.targetRef with
    | none => rw [htr] at hp; cases hp
    | some tr =>
      rw [htr] at hp
      rw [Bool.and_eq_true, Bool.not_eq_true', List.any_eq_true] at hp
      obtain ⟨hnm, ref, href, hmatch⟩ := hp
      refine ⟨hnm, tr, rfl, ?_⟩
      rcases List.mem_cons.mp href with rfl | hrefs
      · exact Or.inl hmatch
      · obtain ⟨o, ho, rfl⟩ := List.mem_map.mp hrefs
        exact Or.inr ⟨o, ho, hmatch⟩
  · rintro ⟨vpa, hmem, hnm, tr, htr, hcase⟩
    refine ⟨vpa, hmem, ?_⟩
    rw [htr, Bool.and_eq_true, Bool.not_eq_true', List.any_eq_true]
    refine ⟨hnm, ?_⟩
    rcases hcase with hself | ⟨o, ho, hmatch⟩
    · exact ⟨selfRef w, List.mem_cons_self _ _, hself⟩
    · exact ⟨⟨o.kind, o.name, o.apiVersion⟩,
        List.mem_cons_of_mem _ (List.mem_map.mpr ⟨o, ho, rfl⟩), hmatch⟩

/-! ## C5/C6: the shaper -/

theorem lookupAnn_insertAnn_self (as : Annotations) (k v : String) :
    lookupAnn (insertAnn as k v) k = some v := by
  induction as with
  | nil => simp [insertAnn, lookupAnn]
  | cons hd tl ih =>
    obtain ⟨k', v'⟩ := hd
    by_cases h : k' = k
    · simp [insertAnn, h, lookupAnn]
    · simp [insertAnn, h, lookupAnn, ih]

theorem lookupAnn_insertAnn_ne (as : Annotations) {k k' : String} (v : String) (h : k' ≠ k) :
    lookupAnn (insertAnn as k' v) k = lookupAnn as k := by
  induction as with
  | nil => simp [insertAnn, lookupAnn, h]
  | cons hd tl ih =>
    obtain ⟨k0, v0⟩ := hd
    by_cases h0 : k0 = k'
    · simp [insertAnn, h0, lookupAnn, h]
    · simp only [insertAnn, h0, if_false, lookupAnn]
      by_cases h1 : k0 = k
      · simp [h1]
      · simp [h1, ih]

theorem insertAnn_lookup_eq (as : Annotations) (k v : String) (h : lookupAnn as k = some v) :
    insertAnn as k v = as := by
  induction as with
  | nil => simp [lookupAnn] at h
  | cons hd tl ih =>
    obtain ⟨k0, v0⟩ := hd
    by_cases h0 : k0 = k
    · simp only [lookupAnn, h0, if_true, Option.some.injEq] at h
      simp [insertAnn, h0, h]
    · simp only [lookupAnn, h0, if_false] at h
      simp [insertAnn, h0, ih h]

theorem insertAnn_idem (as : Annotations) (k v : String) :
    insertAnn (insertAnn as k v) k v = insertAnn as k v :=
  insertAnn_lookup_eq _ _ _ (lookupAnn_insertAnn_self as k v)

theorem referSameObject_self (r : OwnerReference) : referSameObject r r = true := by
  simp [referSameObject]

theorem upsertOwnerRef_idem (r : OwnerReference) (l : List OwnerReference) :
    upsertOwnerRef r (upsertOwnerRef r l) = upsertOwnerRef r l := by
  induction l with
  | nil => simp [upsertOwnerRef, referSameObject_self]
  | cons x xs ih =>
    by_cases h : referSameObject x r = true
    · simp [upsertOwnerRef, h, referSameObject_self]
    · simp [upsertOwnerRef, h, ih]

/-- The update mode `configureVpa` settles on: the workload's annotation
override when present and supported, the process default otherwise. -/
def effectiveUpdateMode (ctrl : ButlerDefaults) (w : Workload) : String :=
  match lookupAnn w.annotations UpdateModeAnnotationKey with
  | some s => if SupportedUpdatedModes.contains s then s else ctrl.vpaUpdateMode
  | none => ctrl.vpaUpdateMode

/-- The `minReplicas` value the min-replicas rule computes from the update
mode in force and the replica count. -/
def minReplicasVal : Option String → Option Int → Option Int
  | some m, replicas =>
    if autoModes.contains m then
      match replicas with
      | some r => if r ≤ 1 then some 1 else none
      | none => none
    else none
  | none, _ => none

/-- The `minReplicas` value `configureVpa` settles on: 1 exactly when the
effective update mode is `Auto` or `Recreate` and the workload has a
defined replica count of at most 1; absent otherwise. -/
def minReplicasFor (ctrl : ButlerDefaults) (o : ReplicatedObject) : Option Int :=
  minReplicasVal (some (effectiveUpdateMode ctrl o.object)) o.replicas

/-- The container-policy list `configureVpa` settles on: a fresh `"*"`
policy when the incoming resource policy is nil or empty, otherwise the
incoming policies with controlled resources, controlled values and
min-allowed overwritten. -/
def policiesFor (ctrl : ButlerDefaults) (cv : String) :
    Option PodResourcePolicy → List ContainerResourcePolicy
  | none => [freshContainerPolicy ctrl cv]
  | some rp =>
    if rp.containerPolicies.isEmpty then [freshContainerPolicy ctrl cv]
    else rp.containerPolicies.map (updatedContainerPolicy ctrl cv)

/-- Baseline plus update-mode override, in closed form. -/
theorem applyBaselineOverride_eq (ctrl : ButlerDefaults) (o : ReplicatedObject) (vpa : Vpa) :
    applyUpdateModeOverride o.object.annotations
        (ConfigureVpaBaseline vpa o.object ctrl.vpaUpdateMode) =
      { vpa with
        annotations := insertAnn vpa.annotations annotationManagedBy annotationVpaButler
        spec := { vpa.spec with
          targetRef := some ⟨o.object.kind, o.object.name, o.object.apiVersion⟩
          updatePolicy := some ⟨some (effectiveUpdateMode ctrl o.object), none⟩ } } := by
  cases h : lookupAnn o.object.annotations UpdateModeAnnotationKey with
  | none => simp [applyUpdateModeOverride, ConfigureVpaBaseline, effectiveUpdateMode, h]
  | some s =>
    by_cases hs : s ∈ SupportedUpdatedModes <;>
      simp [applyUpdateModeOverride, ConfigureVpaBaseline, effectiveUpdateMode, setUpdateMode,
        h, hs]

/-- The min-replicas block, in closed form. -/
theorem applyMinReplicasRule_eq (replicas : Option Int) (vpa : Vpa) :
    applyMinReplicasRule replicas vpa =
      { vpa with spec := { vpa.spec with
          updatePolicy := some
            ⟨(vpa.spec.updatePolicy.getD ⟨none, none⟩).updateMode,
              minReplicasVal (vpa.spec.updatePolicy.getD ⟨none, none⟩).updateMode replicas⟩ } } := by
  cases hm : (vpa.spec.updatePolicy.getD ⟨none, none⟩).updateMode with
  | none =>
    simp [applyMinReplicasRule, setMinReplicas, minReplicasVal, hm]
  | some m =>
    by_cases hauto : m ∈ autoModes
    · cases replicas with
      | none => simp [applyMinReplicasRule, setMinReplicas, minReplicasVal, hm, hauto]
      | some r =>
        by_cases hr : r ≤ 1 <;>
          simp [applyMinReplicasRule, setMinReplicas, minReplicasVal, hm, hauto, hr]
    · simp [applyMinReplicasRule, setMinReplicas, minReplicasVal, hm, hauto]

/-- The container-policies block, in closed form. -/
theorem applyResourcePolicy_eq (ctrl : ButlerDefaults) (cv : String) (vpa : Vpa) :
    applyResourcePolicy ctrl cv vpa =
      { vpa with spec := { vpa.spec with
          resourcePolicy := some ⟨policiesFor ctrl cv vpa.spec.resourcePolicy⟩ } } := by
  cases h : vpa.spec.resourcePolicy with
  | none => simp [applyResourcePolicy, policiesFor, h]
  | some rp =>
    by_cases he : rp.containerPolicies.isEmpty = true <;>
      simp [applyResourcePolicy, policiesFor, h, he]

/-- Closed form of `configureVpa`: every output field as a function of the
inputs. -/
theorem configureVpa_eq (ctrl : ButlerDefaults) (o : ReplicatedObject) (vpa : Vpa) :
    configureVpa ctrl o vpa =
      { name := vpa.name
        ns := vpa.ns
        uid := vpa.uid
        annotations := insertAnn
            (insertAnn vpa.annotations annotationManagedBy annotationVpaButler)
            annotationVpaButlerVersion ctrl.version
        ownerReferences := (upsertOwnerRef
            ⟨o.object.apiVersion, o.object.kind, o.object.name, o.object.uid⟩
            vpa.ownerReferences)
        spec :=
          { targetRef := some ⟨o.object.kind, o.object.name, o.object.apiVersion⟩
            updatePolicy := some ⟨some (effectiveUpdateMode ctrl o.object), minReplicasFor ctrl o⟩
            resourcePolicy := some
              ⟨policiesFor ctrl (effectiveControlledValues ctrl o.object)
                vpa.spec.resourcePolicy⟩ } } := by
  show SetOwnerReference o.object _ = _
  rw [applyBaselineOverride_eq, applyMinReplicasRule_eq, applyResourcePolicy_eq]
  simp [SetOwnerReference, minReplicasFor]

theorem updatedContainerPolicy_comp (ctrl : ButlerDefaults) (cv : String) :
    updatedContainerPolicy ctrl cv ∘ updatedContainerPolicy ctrl cv =
      updatedContainerPolicy ctrl cv :=
  funext fun _ => rfl

/-- Feeding the container-policy list `configureVpa` produces back into the
same rewrite is a no-op. -/
theorem policiesFor_stable (ctrl : ButlerDefaults) (cv : String) (X : Option PodResourcePolicy) :
    policiesFor ctrl cv (some ⟨policiesFor ctrl cv X⟩) = policiesFor ctrl cv X := by
  cases X with
  | none =>
    simp [policiesFor, updatedContainerPolicy, freshContainerPolicy]
  | some rp =>
    by_cases he : rp.containerPolicies.isEmpty = true
    · simp [policiesFor, he, updatedContainerPolicy, freshContainerPolicy]
    · have hne : (rp.containerPolicies.map (updatedContainerPolicy ctrl cv)).isEmpty = false := by
        cases hcp : rp.containerPolicies with
        | nil => rw [hcp] at he; simp at he
        | cons a as => simp
      simp [policiesFor, he, hne, List.map_map, updatedContainerPolicy_comp]

/-- C5: the shape function is idempotent — applying `configureVpa` twice
with the same workload, replica count, and process defaults produces the
same VPA object as applying it once. -/
theorem configureVpa_idempotent (ctrl : ButlerDefaults) (o : ReplicatedObject) (vpa : Vpa) :
    configureVpa ctrl o (configureVpa ctrl o vpa) = configureVpa ctrl o vpa := by
  have hkeys : annotationVpaButlerVersion ≠ annotationManagedBy := by decide
  have hann : ∀ A : Annotations,
      insertAnn (insertAnn
          (insertAnn (insertAnn A annotationManagedBy annotationVpaButler)
            annotationVpaButlerVersion ctrl.version)
          annotationManagedBy annotationVpaButler)
        annotationVpaButlerVersion ctrl.version =
      insertAnn (insertAnn A annotationManagedBy annotationVpaButler)
        annotationVpaButlerVersion ctrl.version := by
    intro A
    have h1 : insertAnn (insertAnn (insertAnn A annotationManagedBy annotationVpaButler)
        annotationVpaButlerVersion ctrl.version) annotationManagedBy annotationVpaButler =
        insertAnn (insertAnn A annotationManagedBy annotationVpaButler)
          annotationVpaButlerVersion ctrl.version := by
      apply insertAnn_lookup_eq
      rw [lookupAnn_insertAnn_ne _ _ hkeys]
      exact lookupAnn_insertAnn_self _ _ _
    rw [h1, insertAnn_idem]
  rw [configureVpa_eq ctrl o vpa, configureVpa_eq]
  simp only [hann, upsertOwnerRef_idem, policiesFor_stable]

/-- C6: after `configureVpa`, `spec.updatePolicy.minReplicas` is 1 exactly
when the effective update mode (the annotation override when valid, the
process default otherwise) is `Auto` or `Recreate` and the workload has a
defined replica count of at most 1; in every other case the field is
absent. -/
theorem configureVpa_minReplicas (ctrl : ButlerDefaults) (o : ReplicatedObject) (vpa : Vpa) :
    (configureVpa ctrl o vpa).spec.updatePolicy =
      some ⟨some (effectiveUpdateMode ctrl o.object),
        if autoModes.contains (effectiveUpdateMode ctrl o.object) then
          match o.replicas with
          | some r => if r ≤ 1 then some 1 else none
          | none => none
        else none⟩ := by
  rw [configureVpa_eq]
  rfl

/-! ## C7: the distribution functions stay within the capacity budget -/

theorem nat_mul_div_le (a b c : Nat) : a * (b / c) ≤ a * b / c := by
  rcases Nat.eq_zero_or_pos c with hc | hc
  · subst hc; simp
  · rw [Nat.le_div_iff_mul_le hc]
    calc a * (b / c) * c = a * (b / c * c) := by ring
    _ ≤ a * b := Nat.mul_le_mul_left a (Nat.div_mul_le_self b c)

theorem nat_div_add_div_le (a b n : Nat) : a / n + b / n ≤ (a + b) / n := by
  rcases Nat.eq_zero_or_pos n with hn | hn
  · subst hn; simp
  · rw [Nat.le_div_iff_mul_le hn]
    calc (a / n + b / n) * n = a / n * n + b / n * n := by ring
    _ ≤ a + b := Nat.add_le_add (Nat.div_mul_le_self a n) (Nat.div_mul_le_self b n)

/-- Core bound for the uniform distribution: `C` containers at
`⌊m·⌊P/C⌋/100⌋` each stay within `⌊m·P/100⌋`. -/
theorem uniform_scale_bound (m P C : Nat) : C * (m * (P / C) / 100) ≤ m * P / 100 := by
  calc C * (m * (P / C) / 100) ≤ C * (m * (P / C)) / 100 := nat_mul_div_le C _ 100
  _ ≤ m * P / 100 := by
    apply Nat.div_le_div_right
    calc C * (m * (P / C)) = m * (P / C * C) := by ring
    _ ≤ m * P := Nat.mul_le_mul_left m (Nat.div_mul_le_self P C)

/-- Core bound for the asymmetric distribution with `k = C − 1 ≥ 1`: the
main share at `P·3k/(4k)` percent plus `k` sibling shares at `P/(4k)`
percent stay within `⌊m·P/100⌋`. -/
theorem asym_scale_bound (m P k : Nat) (hk : 1 ≤ k) :
    m * (P * (3 * k) / (4 * k)) / 100 + k * (m * (P / (4 * k)) / 100) ≤ m * P / 100 := by
  have hkpos : 0 < k := hk
  have hmain : P * (3 * k) / (4 * k) = 3 * P / 4 := by
    have h1 : P * (3 * k) = 3 * P * k := by ring
    rw [h1, Nat.mul_div_mul_right _ _ hkpos]
  have hshare : k * (P / (4 * k)) ≤ P / 4 := by
    calc k * (P / (4 * k)) ≤ k * P / (4 * k) := nat_mul_div_le k P (4 * k)
    _ = P * k / (4 * k) := by rw [Nat.mul_comm k P]
    _ = P / 4 := Nat.mul_div_mul_right _ _ hkpos
  have hpercent : P * (3 * k) / (4 * k) + k * (P / (4 * k)) ≤ P := by
    calc P * (3 * k) / (4 * k) + k * (P / (4 * k)) ≤ 3 * P / 4 + P / 4 := by
          rw [hmain]
          exact Nat.add_le_add_left hshare _
    _ ≤ (3 * P + P) / 4 := nat_div_add_div_le _ _ _
    _ = 4 * P / 4 := by ring_nf
    _ = P := Nat.mul_div_cancel_left P (by norm_num)
  calc m * (P * (3 * k) / (4 * k)) / 100 + k * (m * (P / (4 * k)) / 100)
      ≤ m * (P * (3 * k) / (4 * k)) / 100 + k * (m * (P / (4 * k))) / 100 :=
        Nat.add_le_add_left (nat_mul_div_le k _ 100) _
  _ ≤ (m * (P * (3 * k) / (4 * k)) + k * (m * (P / (4 * k)))) / 100 := nat_div_add_div_le _ _ _
  _ ≤ m * P / 100 := by
      apply Nat.div_le_div_right
      calc m * (P * (3 * k) / (4 * k)) + k * (m * (P / (4 * k)))
          = m * (P * (3 * k) / (4 * k) + k * (P / (4 * k))) := by ring
      _ ≤ m * P := Nat.mul_le_mul_left m hpercent

/-- Placeholder entry for reading a distribution result by position. -/
def defaultNamedResources : NamedResourceList := ⟨"", ⟨0, 0⟩⟩

/-- C7: for both distribution functions the summed `maxAllowed` stays
within `capacityPercent` percent of the chosen node's allocatable
resources — the uniform `"*"` entry counted once per container, the
asymmetric main entry once and its `"*"` entry once per remaining
container; CPU in millicores and memory in base units. -/
theorem distribution_capacity_bounds (params : ResourceDistributionParams)
    (mainContainer : String)
    (hC : 1 ≤ params.target.podSpec.containers.length)
    (hP1 : 1 ≤ params.capacityPercent) (hP2 : params.capacityPercent ≤ 100) :
    (params.target.podSpec.containers.length *
        ((uniformDistribution params).getD 0 defaultNamedResources).resources.cpuMilli ≤
      params.largest.allocatable.cpuMilli * params.capacityPercent / 100
    ∧ params.target.podSpec.containers.length *
        ((uniformDistribution params).getD 0 defaultNamedResources).resources.memBytes ≤
      params.largest.allocatable.memBytes * params.capacityPercent / 100)
    ∧ (2 ≤ params.target.podSpec.containers.length →
      ((asymmetricDistribution mainContainer params).getD 0 defaultNamedResources).resources.cpuMilli
          + (params.target.podSpec.containers.length - 1) *
            ((asymmetricDistribution mainContainer params).getD 1
              defaultNamedResources).resources.cpuMilli ≤
        params.largest.allocatable.cpuMilli * params.capacityPercent / 100
      ∧ ((asymmetricDistribution mainContainer params).getD 0
            defaultNamedResources).resources.memBytes
          + (params.target.podSpec.containers.length - 1) *
            ((asymmetricDistribution mainContainer params).getD 1
              defaultNamedResources).resources.memBytes ≤
        params.largest.allocatable.memBytes * params.capacityPercent / 100) := by
  constructor
  · constructor
    · simpa [uniformDistribution, scaleQuantityMilli, scaleDivisor] using
        uniform_scale_bound params.largest.allocatable.cpuMilli params.capacityPercent
          params.target.podSpec.containers.length
    · simpa [uniformDistribution, scaleQuantity, scaleDivisor] using
        uniform_scale_bound params.largest.allocatable.memBytes params.capacityPercent
          params.target.podSpec.containers.length
  · intro h2
    have hk : 1 ≤ params.target.podSpec.containers.length - 1 := by omega
    constructor
    · simpa [asymmetricDistribution, scaleQuantityMilli, scaleDivisor] using
        asym_scale_bound params.largest.allocatable.cpuMilli params.capacityPercent
          (params.target.podSpec.containers.length - 1) hk
    · simpa [asymmetricDistribution, scaleQuantity, scaleDivisor] using
        asym_scale_bound params.largest.allocatable.memBytes params.capacityPercent
          (params.target.podSpec.containers.length - 1) hk

/-- The concrete instance for the C7 witness: two containers, a node with
1 CPU (1000 millicores) and 2000 bytes of memory, capacity percent 90. -/
def c7Params : ResourceDistributionParams :=
  ⟨⟨⟨"", [], ["main", "side"]⟩⟩, ⟨"node1", false, [], ⟨1000, 2000⟩⟩, 90⟩

/-- C7, witness: the bounds instantiated at `c7Params`, all hypotheses
discharged. -/
theorem distribution_capacity_bounds_witness :
    (c7Params.target.podSpec.containers.length *
        ((uniformDistribution c7Params).getD 0 defaultNamedResources).resources.cpuMilli ≤
      c7Params.largest.allocatable.cpuMilli * c7Params.capacityPercent / 100
    ∧ c7Params.target.podSpec.containers.length *
        ((uniformDistribution c7Params).getD 0 defaultNamedResources).resources.memBytes ≤
      c7Params.largest.allocatable.memBytes * c7Params.capacityPercent / 100)
    ∧ (((asymmetricDistribution "main" c7Params).getD 0 defaultNamedResources).resources.cpuMilli
          + (c7Params.target.podSpec.containers.length - 1) *
            ((asymmetricDistribution "main" c7Params).getD 1
              defaultNamedResources).resources.cpuMilli ≤
        c7Params.largest.allocatable.cpuMilli * c7Params.capacityPercent / 100
      ∧ ((asymmetricDistribution "main" c7Params).getD 0
            defaultNamedResources).resources.memBytes
          + (c7Params.target.podSpec.containers.length - 1) *
            ((asymmetricDistribution "main" c7Params).getD 1
              defaultNamedResources).resources.memBytes ≤
        c7Params.largest.allocatable.memBytes * c7Params.capacityPercent / 100) :=
  ⟨(distribution_capacity_bounds c7Params "main" (by decide) (by decide) (by decide)).1,
   (distribution_capacity_bounds c7Params "main" (by decide) (by decide) (by decide)).2
     (by decide)⟩

/-! ## C8: the node filter pipeline -/

/-- `NodeName` never fails, its result is drawn from the input, and — when
node names are unique in the input — a node is kept iff the pod template
pins no node name or pins this node's name. -/
theorem NodeName_mem (target : TargetedVpa) (nodes : List Node)
    (hnames : ∀ a ∈ nodes, ∀ b ∈ nodes, a.name = b.name → a = b) :
    ∃ l, NodeName target nodes = .ok l ∧
      ∀ n ∈ nodes,
        (n ∈ l ↔ (target.podSpec.nodeName = "" ∨ n.name = target.podSpec.nodeName)) := by
  by_cases h0 : target.podSpec.nodeName = ""
  · refine ⟨nodes, by simp [NodeName, h0], ?_⟩
    intro n hn
    simp [hn, h0]
  · have h0b : (target.podSpec.nodeName == "") = false := by simpa using h0
    cases hfind : nodes.find? (fun node => node.name == target.podSpec.nodeName) with
    | none =>
      refine ⟨[], by simp [NodeName, h0b, hfind], ?_⟩
      intro n hn
      have hall := List.find?_eq_none.mp hfind n hn
      simp only [beq_iff_eq] at hall
      simp [h0, hall]
    | some m =>
      have hmn : m.name = target.podSpec.nodeName := by
        have := List.find?_some hfind
        simpa using this
      have hmem : m ∈ nodes := List.mem_of_find?_eq_some hfind
      refine ⟨[m], by simp [NodeName, h0b, hfind], ?_⟩
      intro n hn
      constructor
      · intro hnl
        rcases List.mem_singleton.mp hnl with rfl
        exact Or.inr hmn
      · rintro (hc | hc)
        · exact absurd hc h0
        · have : n = m := hnames n hn m hmem (by rw [hc, hmn])
          simpa [this]

/-- `NodeAffinity` membership: when the affinity pass succeeds, a node is
in the result iff it was in the input and the matcher accepted it. -/
theorem NodeAffinity_mem (H : SchedulingHelpers) (target : TargetedVpa) (l : List Node) :
    ∀ r, NodeAffinity H target l = .ok r →
      ∀ n, (n ∈ r ↔ n ∈ l ∧ H.affinityMatch target.podSpec n = .ok true) := by
  induction l with
  | nil =>
    intro r h n
    simp only [NodeAffinity, Except.ok.injEq] at h
    subst h
    simp
  | cons c cs ih =>
    intro r h n
    cases hm : H.affinityMatch target.podSpec c with
    | error e => simp [NodeAffinity, hm] at h
    | ok b =>
      cases hrec : NodeAffinity H target cs with
      | error e => simp [NodeAffinity, hm, hrec] at h
      | ok tail =>
        simp only [NodeAffinity, hm, hrec, Except.ok.injEq] at h
        subst h
        have iht := ih tail hrec n
        cases b with
        | true =>
          rw [if_pos rfl]
          constructor
          · intro hn
            rcases List.mem_cons.mp hn with rfl | ht
            · exact ⟨List.mem_cons_self _ _, hm⟩
            · obtain ⟨h1, h2⟩ := iht.mp ht
              exact ⟨List.mem_cons_of_mem _ h1, h2⟩
          · rintro ⟨hmem, hraw⟩
            rcases List.mem_cons.mp hmem with rfl | hcs
            · exact List.mem_cons_self _ _
            · exact List.mem_cons_of_mem _ (iht.mpr ⟨hcs, hraw⟩)
        | false =>
          rw [if_neg Bool.false_ne_true]
          constructor
          · intro hn
            obtain ⟨h1, h2⟩ := iht.mp hn
            exact ⟨List.mem_cons_of_mem _ h1, h2⟩
          · rintro ⟨hmem, hraw⟩
            rcases List.mem_cons.mp hmem with rfl | hcs
            · rw [hm] at hraw
              cases hraw
            · exact iht.mpr ⟨hcs, hraw⟩

/-- C8, amended: `Evaluate` is the composition NodeName → TaintToleration
→ NodeAffinity with short-circuit on error (first conjunct, definitional),
and — *provided node names in the input are pairwise distinct, as
Kubernetes guarantees* — a successful evaluation keeps exactly the input
nodes that pass the pinned-node-name check, have no untolerated
`NoSchedule`/`NoExecute` taint, and are accepted by the required node
affinity matcher. -/
theorem Evaluate_membership (H : SchedulingHelpers) (target : TargetedVpa)
    (nodes res : List Node)
    (hnames : ∀ a ∈ nodes, ∀ b ∈ nodes, a.name = b.name → a = b)
    (hres : Evaluate H target nodes = .ok res) :
    (Evaluate H target nodes =
      (NodeName target nodes >>= fun next => TaintToleration H target next >>= fun next =>
        NodeAffinity H target next))
    ∧ ∀ n ∈ nodes,
        (n ∈ res ↔
          (target.podSpec.nodeName = "" ∨ n.name = target.podSpec.nodeName)
          ∧ FindMatchingUntoleratedTaint H n.taints target.podSpec.tolerations
              doNotScheduleTaint = false
          ∧ H.affinityMatch target.podSpec n = .ok true) := by
  refine ⟨?_, ?_⟩
  · cases h1 : NodeName target nodes with
    | error e => simp [Evaluate, h1, Bind.bind, Except.bind]
    | ok l1 =>
      cases h2 : TaintToleration H target l1 with
      | error e => simp [Evaluate, h1, h2, Bind.bind, Except.bind]
      | ok l2 => simp [Evaluate, h1, h2, Bind.bind, Except.bind]
  obtain ⟨l1, hl1, hiff⟩ := NodeName_mem target nodes hnames
  rw [Evaluate, hl1] at hres
  simp only [TaintToleration] at hres
  intro n hn
  have haff := NodeAffinity_mem H target
    (l1.filter (fun node =>
      ! FindMatchingUntoleratedTaint H node.taints target.podSpec.tolerations doNotScheduleTaint))
    res hres n
  rw [haff, List.mem_filter]
  constructor
  · rintro ⟨⟨h1, h2⟩, h3⟩
    refine ⟨(hiff n hn).mp h1, ?_, h3⟩
    simpa using h2
  · rintro ⟨h1, h2, h3⟩
    refine ⟨⟨(hiff n hn).mpr h1, ?_⟩, h3⟩
    simpa using h2

/-- The helper instance for the C8 counterexample and witness: no
toleration ever matches and the affinity matcher accepts every node (a pod
with neither affinity nor tolerations behaves this way). -/
def c8H : SchedulingHelpers :=
  ⟨fun _ _ => false, fun _ _ => .ok true⟩

/-- The targeted view of the C8 counterexample: the pod template pins node
name `x`. -/
def c8Target : TargetedVpa := ⟨⟨"x", [], ["c"]⟩⟩

/-- First node named `x`. -/
def c8Node1 : Node := ⟨"x", false, [], ⟨1, 1⟩⟩

/-- A different node also named `x`. -/
def c8Node2 : Node := ⟨"x", false, [], ⟨2, 2⟩⟩

/-- C8, counterexample: with two distinct nodes sharing the pinned name
`x`, the second node passes the node-name check, has no untolerated taint
and is accepted by the affinity matcher, yet is absent from the result —
`NodeName` returns only the first match.  The claim's membership
characterization therefore fails on inputs with duplicate node names. -/
theorem Evaluate_duplicateName_counterexample :
    Evaluate c8H c8Target [c8Node1, c8Node2] = .ok [c8Node1]
    ∧ c8Node2.name = c8Target.podSpec.nodeName
    ∧ FindMatchingUntoleratedTaint c8H c8Node2.taints c8Target.podSpec.tolerations
        doNotScheduleTaint = false
    ∧ c8H.affinityMatch c8Target.podSpec c8Node2 = .ok true
    ∧ c8Node2 ∉ ([c8Node1] : List Node) := by
  refine ⟨rfl, rfl, rfl, rfl, ?_⟩
  decide

/-- The single node of the C8 witness. -/
def c8WitnessNode : Node := ⟨"n1", false, [], ⟨1, 1⟩⟩

/-- The targeted view of the C8 witness: no pinned node name. -/
def c8WitnessTarget : TargetedVpa := ⟨⟨"", [], ["c"]⟩⟩

/-- C8, witness: the amended theorem applied to a singleton node list with
all hypotheses discharged. -/
theorem Evaluate_membership_witness :
    c8WitnessNode ∈ ([c8WitnessNode] : List Node) ↔
      (c8WitnessTarget.podSpec.nodeName = "" ∨
        c8WitnessNode.name = c8WitnessTarget.podSpec.nodeName)
      ∧ FindMatchingUntoleratedTaint c8H c8WitnessNode.taints
          c8WitnessTarget.podSpec.tolerations doNotScheduleTaint = false
      ∧ c8H.affinityMatch c8WitnessTarget.podSpec c8WitnessNode = .ok true :=
  (Evaluate_membership c8H c8WitnessTarget [c8WitnessNode] [c8WitnessNode]
      (by decide) rfl).2 c8WitnessNode (List.mem_singleton.mpr rfl)

end VpaButler
